import Mathlib

/-!
Verification of the todoman task store against its specification.

The repository ships `todoman/cli.py` (the command layer).  The task-store
core (`todoman/model.py`: `Database`, `Todo`, the record codec, the cache)
is referenced by the command layer but its source is not available here;
those parts are modelled from the specification, as marked in each doc
comment.  Everything taken from `cli.py` cites its line numbers.
-/

namespace Todoman

/-- Modelled from the spec: one structured task component inside a task
file, as parsed by the Record Codec of `todoman/model.py` (not available
in the sources).  Fields follow the spec data model (summary, completion
flag, creation timestamp, optional due/start timestamps, optional
location/category text, optional priority ordinal) plus a `uid` identity
and an opaque passthrough bag for unrecognized properties.  Timestamps
are canonical instants, modelled as integers. -/
structure Component where
  uid : String
  summary : String
  completed : Bool
  created_at : Int
  due : Option Int
  start : Option Int
  location : Option String
  category : Option String
  priority : Option Nat
  extra : List (String × String)
deriving DecidableEq, Repr

/-- Modelled from the spec: the content of a task file at rest, already
classified by the codec front end: either a structurally valid sequence
of task components, or structurally invalid input (which the codec
rejects with `FormatError`). -/
inductive FileContent where
  | valid (components : List Component)
  | invalid
deriving DecidableEq, Repr

/-- Modelled from the spec: a decoded `Todo` record as produced by
`todoman/model.py` (not available in the sources): the component fields
plus the `read_only` flag (true when the backing file holds more than
one component), the owning list name and the backing file name. -/
structure Todo where
  uid : String
  summary : String
  completed : Bool
  created_at : Int
  due : Option Int
  start : Option Int
  location : Option String
  category : Option String
  priority : Option Nat
  extra : List (String × String)
  read_only : Bool
  list : String
  filename : String
deriving DecidableEq, Repr

/-- The error taxonomy of the spec (`FormatError`, `NoSuchTodo`,
`ReadOnlyTodo`, `ListsNotFoundError`, `InvalidSortFieldError`) together
with the command-layer rejections of `cli.py` (`click.BadParameter` from
the sort callback and the id range checks, `click.ClickException` from
the option-conflict check at lines 195-197). -/
inductive Err where
  | formatError
  | noSuchTodo (id : Nat)
  | readOnlyTodo (path : String)
  | listsNotFound
  | invalidSortField (field : String)
  | optionConflict
  | badParameter (value : Int)
deriving DecidableEq, Repr

/-- The backing path of a todo: its list directory plus its file name. -/
def Todo.path (t : Todo) : String :=
  t.list ++ "/" ++ t.filename

/-- Modelled from the spec: how the codec turns one parsed component into
a `Todo`, tagging it with the read-only flag and its file's location. -/
def Component.toTodo (c : Component) (ro : Bool) (listName fname : String) : Todo :=
  { uid := c.uid, summary := c.summary, completed := c.completed,
    created_at := c.created_at, due := c.due, start := c.start,
    location := c.location, category := c.category, priority := c.priority,
    extra := c.extra, read_only := ro, list := listName, filename := fname }

/-- Modelled from the spec: the component serialized back from a `Todo`,
keeping every independently modelled field and the opaque passthrough. -/
def Todo.toComponent (t : Todo) : Component :=
  { uid := t.uid, summary := t.summary, completed := t.completed,
    created_at := t.created_at, due := t.due, start := t.start,
    location := t.location, category := t.category, priority := t.priority,
    extra := t.extra }

/-- Modelled from the spec: `decode(bytes) -> ordered sequence of Task,
flagged read_only if count > 1`; fails with `FormatError` on structurally
invalid input.  (`todoman/model.py` is not in the sources.) -/
def decode (content : FileContent) (listName fname : String) :
    Except Err (List Todo) :=
  match content with
  | .invalid => .error .formatError
  | .valid cs => .ok (cs.map (fun c => c.toTodo (decide (1 < cs.length)) listName fname))

/-- Modelled from the spec: `encode(Task) -> bytes`, the inverse for a
single task; encoding a `read_only` task is refused and surfaced as an
error, never silently performed.  (`todoman/model.py` is not in the
sources.) -/
def encode (t : Todo) : Except Err FileContent :=
  if t.read_only then .error (.readOnlyTodo t.path)
  else .ok (.valid [t.toComponent])

theorem toComponent_toTodo (c : Component) (ro : Bool) (listName fname : String) :
    (c.toTodo ro listName fname).toComponent = c := rfl

/-- C1: decoding a valid single-component task file yields one task with
`read_only = false`; re-encoding it succeeds and reproduces exactly the
original component, so every independently modelled field round-trips;
and every task decoded from a multi-component file (two or more
components) is refused by `encode`, even untouched. -/
theorem decode_encode_roundtrip (c : Component) (listName fname : String)
    (cs : List Component) (hcs : 2 ≤ cs.length) :
    (decode (.valid [c]) listName fname = .ok [c.toTodo false listName fname]
      ∧ encode (c.toTodo false listName fname) = .ok (.valid [c]))
    ∧ ∀ ts, decode (.valid cs) listName fname = .ok ts →
        ∀ t ∈ ts, encode t = .error (.readOnlyTodo t.path) := by
  refine ⟨⟨rfl, rfl⟩, ?_⟩
  intro ts hts t ht
  simp only [decode, Except.ok.injEq] at hts
  subst hts
  simp only [List.mem_map] at ht
  obtain ⟨comp, _, hct⟩ := ht
  have hro : t.read_only = true := by
    rw [← hct]
    simp [Component.toTodo, decide_eq_true_eq]
    omega
  simp [encode, hro]

/-- Witness for C1 at concrete inputs: a sample component in a
single-component file, and a two-component file. -/
theorem decode_encode_roundtrip_witness :
    let c : Component :=
      { uid := "u1", summary := "Buy milk", completed := false,
        created_at := 0, due := none, start := none, location := none,
        category := none, priority := none, extra := [] }
    (decode (.valid [c]) "work" "a.ics" = .ok [c.toTodo false "work" "a.ics"]
      ∧ encode (c.toTodo false "work" "a.ics") = .ok (.valid [c]))
    ∧ ∀ ts, decode (.valid [c, c]) "work" "a.ics" = .ok ts →
        ∀ t ∈ ts, encode t = .error (.readOnlyTodo t.path) := by
  exact decode_encode_roundtrip _ "work" "a.ics" _ (by decide)

/-- Modelled from the spec: one file discovered by the File Index of
`todoman/model.py` (not in the sources): its list directory, its file
name, whether the entry is readable (unreadable entries are silently
skipped by the scan), and its parsed-at-rest content. -/
structure DiskFile where
  list : String
  filename : String
  readable : Bool
  content : FileContent
deriving DecidableEq, Repr

/-- The on-disk state: the discovered task files, in discovery order. -/
abbrev FS := List DiskFile

/-- The backing path of a disk file, matching `Todo.path`. -/
def DiskFile.path (f : DiskFile) : String :=
  f.list ++ "/" ++ f.filename

/-- `TODO_ID_MIN`, `cli.py` line 16: the smallest assigned task id. -/
def TODO_ID_MIN : Nat := 1

/-- Modelled from the spec: the Id Allocator, `assign(ordered Task
sequence) -> mapping id -> Task`, ids 1..N in the input order
(`todoman/model.py` is not in the sources). -/
def assign (ts : List Todo) : List (Nat × Todo) :=
  ts.enumFrom TODO_ID_MIN

/-- Modelled from the spec: the File Index scan restricted to the
configured list directories; unreadable individual entries are silently
skipped. -/
def scan (paths : List String) (fs : FS) : List DiskFile :=
  fs.filter (fun f => f.readable && paths.contains f.list)

/-- Modelled from the spec: the todos of one scanned file; a per-file
`FormatError` is isolated and does not abort the collection. -/
def fileTodos (f : DiskFile) : List Todo :=
  match decode f.content f.list f.filename with
  | .ok ts => ts
  | .error _ => []

/-- Modelled from the spec: the materialized collection, in discovery
order, of all currently visible tasks under the configured paths. -/
def visibleTodos (paths : List String) (fs : FS) : List Todo :=
  ((scan paths fs).map fileTodos).flatten

/-- Modelled from the spec: the Cache, keyed by file path, holding the
decoded tasks for that file; safely discardable. -/
abbrev Cache := List (String × List Todo)

/-- Modelled from the spec: the `Database` of `todoman/model.py` (not in
the sources): filesystem state, cache, and the materialized collection
with its id mapping. -/
structure Database where
  paths : List String
  fs : FS
  cache : Cache
  mat : List (Nat × Todo)
deriving DecidableEq, Repr

/-- `cli.py` lines 215-218: the configured path pattern is expanded and
only entries that are existing directories are kept.  Each configured
entry is modelled as a name plus whether it resolves to an existing
directory. -/
def resolveLists (patterns : List (String × Bool)) : List String :=
  (patterns.filter (fun p => p.2)).map (fun p => p.1)

/-- Store open: `cli.py` lines 215-225 fail fatally when zero configured
entries resolve to existing directories (before any `Database` is
constructed); otherwise the store is opened over the resolved paths.
The materialization itself is modelled from the spec (reconcile File
Index against Cache, then assign ids over the collection). -/
def openDB (patterns : List (String × Bool)) (fs : FS) : Except Err Database :=
  let paths := resolveLists patterns
  if paths.isEmpty then .error .listsNotFound
  else
    .ok { paths := paths, fs := fs,
          cache := (scan paths fs).map (fun f => (f.path, fileTodos f)),
          mat := assign (visibleTodos paths fs) }

/-- Modelled from the spec: `todo(id) -> Task`, failing with
`NoSuchTodo(id)` when the id is absent from the current
materialization. -/
def lookupTodo (id : Nat) (mat : List (Nat × Todo)) : Except Err Todo :=
  match mat.find? (fun p => p.1 == id) with
  | some p => .ok p.2
  | none => .error (.noSuchTodo id)

/-- Modelled from the spec: the store operation `Database.todo`, as a
state-passing operation so that its effect on the store state is
explicit. -/
def Database.todoOp (id : Nat) (db : Database) : Except Err Todo × Database :=
  (lookupTodo id db.mat, db)

/-- C2: in every materialization the assigned ids are exactly the
integers `TODO_ID_MIN .. N` (1 through N), in the input order, carrying
the input tasks unchanged, with no duplicates (and hence no gaps). -/
theorem assign_ids_contiguous (ts : List Todo) :
    (assign ts).map Prod.fst = List.range' TODO_ID_MIN ts.length
    ∧ (assign ts).map Prod.snd = ts
    ∧ ((assign ts).map Prod.fst).Nodup := by
  have h1 : (assign ts).map Prod.fst = List.range' TODO_ID_MIN ts.length :=
    List.enumFrom_map_fst _ _
  refine ⟨h1, List.enumFrom_map_snd _ _, ?_⟩
  rw [h1]
  exact List.nodup_range' _ _

/-- Ids assigned by `assign` are always at least `TODO_ID_MIN` and at
most the number of tasks. -/
theorem mem_assign_ids (ts : List Todo) (id : Nat) :
    id ∈ (assign ts).map Prod.fst ↔ TODO_ID_MIN ≤ id ∧ id < TODO_ID_MIN + ts.length := by
  rw [show (assign ts).map Prod.fst = List.range' TODO_ID_MIN ts.length from
    List.enumFrom_map_fst _ _, List.mem_range'_1]

/-- C3: requesting an id that is not present in the current
materialization (for example 999 when only 5 tasks exist) fails with
`NoSuchTodo(id)`, and the store state is returned unchanged — the
failure is recoverable. -/
theorem todoOp_noSuchTodo (db : Database) (id : Nat)
    (hid : id ∉ db.mat.map Prod.fst) :
    db.todoOp id = (.error (.noSuchTodo id), db) := by
  have hfind : db.mat.find? (fun p => p.1 == id) = none := by
    rw [List.find?_eq_none]
    intro p hp
    simp only [beq_iff_eq]
    intro hfst
    exact hid (hfst ▸ List.mem_map_of_mem _ hp)
  simp [Database.todoOp, lookupTodo, hfind]

/-- Witness for C3: a 5-task store where requesting id 999 fails with
`NoSuchTodo 999` and leaves the store unchanged. -/
theorem todoOp_noSuchTodo_witness :
    let t : Todo :=
      { uid := "u", summary := "s", completed := false, created_at := 0,
        due := none, start := none, location := none, category := none,
        priority := none, extra := [], read_only := false,
        list := "work", filename := "a.ics" }
    let db : Database :=
      { paths := ["work"], fs := [], cache := [],
        mat := assign [t, t, t, t, t] }
    db.todoOp 999 = (.error (.noSuchTodo 999), db) := by
  intro t db
  exact todoOp_noSuchTodo db 999 (by decide)

/-- Modelled from the spec: `Todo.ALL_SUPPORTED_FIELDS` lives in
`todoman/model.py`, which is not in the sources; the field set is taken
from the spec data model (summary, completion flag, creation timestamp,
due, start, location, category, priority). -/
def ALL_SUPPORTED_FIELDS : List String :=
  ["summary", "completed", "created_at", "due", "start", "location",
   "category", "priority"]

/-- `cli.py` lines 90-91: a single leading `-` negation marker is
stripped from a sort field name before validation (Python
`field.startswith('-')` / `field[1:]`). -/
def stripNegation (field : String) : String :=
  match field.data with
  | '-' :: rest => String.mk rest
  | _ => field

/-- `cli.py` line 93: a sort field is accepted when its stripped name is
a supported task field or the literal name `id`. -/
def fieldOk (field : String) : Bool :=
  ALL_SUPPORTED_FIELDS.contains (stripNegation field)
    || stripNegation field == "id"

/-- Python's `str.split(sep)` on a character list: splits at every
separator, keeping empty pieces, and yields one piece for empty
input. -/
def splitChars (sep : Char) : List Char → List Char → List String
  | [], acc => [String.mk acc.reverse]
  | c :: rest, acc =>
      if c = sep then String.mk acc.reverse :: splitChars sep rest []
      else splitChars sep rest (c :: acc)

/-- `cli.py` line 88: `val.split(',') if val else []` — a missing or
empty `--sort` value yields no fields, otherwise the value is split on
commas. -/
def splitSortFields (val : Option String) : List String :=
  match val with
  | none => []
  | some v => if v = "" then [] else splitChars ',' v.data []

/-- `_sort_callback`, `cli.py` lines 87-96: every supplied field is
checked after stripping an optional leading `-`; the first unknown name
is rejected (`click.BadParameter`, the spec's `InvalidSortFieldError`),
otherwise the field list is returned as given. -/
def sortCallback (val : Option String) : Except Err (List String) :=
  match (splitSortFields val).find? (fun f => !fieldOk f) with
  | some f => .error (.invalidSortField (stripNegation f))
  | none => .ok (splitSortFields val)

/-- C5: a supplied sort key whose stripped name is neither a supported
task field nor `id` makes the sort callback fail with the
invalid-sort-field rejection (reporting some offending stripped name),
while the key `id` — plain or negated — always passes the field check
and is accepted by the callback. -/
theorem sortCallback_rejects_unknown (val : Option String) (f : String)
    (hmem : f ∈ splitSortFields val)
    (hbad : stripNegation f ∉ ALL_SUPPORTED_FIELDS)
    (hid : stripNegation f ≠ "id") :
    (∃ g, fieldOk g = false
        ∧ sortCallback val = .error (.invalidSortField (stripNegation g)))
    ∧ fieldOk "id" = true ∧ fieldOk "-id" = true
    ∧ sortCallback (some "id") = .ok ["id"]
    ∧ sortCallback (some "-id") = .ok ["-id"] := by
  refine ⟨?_, rfl, rfl, rfl, rfl⟩
  have hfOk : fieldOk f = false := by
    simp only [fieldOk, Bool.or_eq_false_iff, beq_eq_false_iff_ne, ne_eq]
    refine ⟨?_, hid⟩
    rw [Bool.eq_false_iff]
    intro hc
    exact hbad (List.elem_iff.mp hc)
  have hsome : ((splitSortFields val).find? (fun g => !fieldOk g)).isSome := by
    rw [List.find?_isSome]
    exact ⟨f, hmem, by simp [hfOk]⟩
  obtain ⟨g, hg⟩ := Option.isSome_iff_exists.mp hsome
  have hgbad : fieldOk g = false := by
    have := List.find?_some hg
    simpa using this
  exact ⟨g, hgbad, by simp [sortCallback, hg]⟩

/-- Witness for C5: the sort key `location,priorityX` is rejected
(`priorityX` is not a field), and `id` / `-id` are accepted. -/
theorem sortCallback_rejects_unknown_witness :
    (∃ g, fieldOk g = false
        ∧ sortCallback (some "location,priorityX")
            = .error (.invalidSortField (stripNegation g)))
    ∧ fieldOk "id" = true ∧ fieldOk "-id" = true
    ∧ sortCallback (some "id") = .ok ["id"]
    ∧ sortCallback (some "-id") = .ok ["-id"] :=
  sortCallback_rejects_unknown (some "location,priorityX") "priorityX"
    (by decide) (by decide) (by decide)

/-- The formatter selected by the top-level command,
`cli.py` lines 202-207. -/
inductive Formatter where
  | defaultFmt
  | humanized
  | porcelainFmt
deriving DecidableEq, Repr

/-- The configuration the top-level command reads (`cli.py` lines
199-200 and 215-218): the `humanize` default and the configured path
pattern, modelled as the expanded entries with their is-directory
status. -/
structure Config where
  humanize : Bool
  path_patterns : List (String × Bool)
deriving DecidableEq, Repr

/-- The top-level `cli` command, `cli.py` lines 188-225, after
configuration loading: reject `--porcelain` together with `--humanize`
(lines 195-197, a `click.ClickException`); apply the configured
`humanize` default when the flag was not passed (lines 199-200); select
the formatter (lines 202-207); resolve the list directories and open the
store, failing when none exists (lines 215-225).  The `--humanize` flag
has no explicit value, so it is `none` or `some true`. -/
def cliRun (porcelain : Bool) (humanize : Option Bool) (cfg : Config)
    (fs : FS) : Except Err (Formatter × Database) :=
  if porcelain && humanize.getD false then .error .optionConflict
  else
    let h := humanize.getD cfg.humanize
    let formatter := if h then Formatter.humanized
      else if porcelain then Formatter.porcelainFmt
      else Formatter.defaultFmt
    match openDB cfg.path_patterns fs with
    | .error e => .error e
    | .ok db => .ok (formatter, db)

/-- C9: passing both `--porcelain` and `--humanize` is rejected with the
option-conflict error before the store is opened: for every
configuration and every filesystem the result is that error, so no task
is ever read, written, or listed. -/
theorem cliRun_porcelain_humanize_conflict (cfg : Config) (fs : FS) :
    cliRun true (some true) cfg fs = .error .optionConflict := rfl

/-- When at least one configured entry resolves to an existing
directory, opening the store succeeds with the scanned cache and the
materialized, id-assigned collection. -/
theorem openDB_ok (patterns : List (String × Bool)) (fs : FS)
    (hsome : resolveLists patterns ≠ []) :
    openDB patterns fs = .ok
      { paths := resolveLists patterns, fs := fs,
        cache := (scan (resolveLists patterns) fs).map
          (fun f => (f.path, fileTodos f)),
        mat := assign (visibleTodos (resolveLists patterns) fs) } := by
  simp [openDB, List.isEmpty_eq_false.mpr hsome]

/-- C8: opening the store fails with the lists-not-found error exactly
when zero configured entries resolve to existing directories — so in
the zero-directories case the open is that fatal failure; when at least
one entry resolves, the open succeeds even in the presence of
unreadable entries, and every unreadable entry is silently skipped by
the scan (it contributes nothing to the materialization). -/
theorem openDB_listsNotFound_and_skips (patterns : List (String × Bool))
    (fs : FS) :
    (openDB patterns fs = .error .listsNotFound ↔ resolveLists patterns = [])
    ∧ (resolveLists patterns ≠ [] →
        ∃ db, openDB patterns fs = .ok db
          ∧ db.mat = assign (visibleTodos (resolveLists patterns) fs))
    ∧ (∀ f ∈ fs, f.readable = false → f ∉ scan (resolveLists patterns) fs) := by
  refine ⟨?_, ?_, ?_⟩
  · constructor
    · intro h
      by_contra hne
      rw [openDB_ok patterns fs hne] at h
      exact Except.noConfusion h
    · intro h
      simp [openDB, h]
  · intro hsome
    exact ⟨_, openDB_ok patterns fs hsome, rfl⟩
  · intro f _ hunread hscan
    have := List.of_mem_filter hscan
    simp [hunread] at this

/-- Witness for C8, both halves at concrete inputs: when the only
configured entry is not a directory the open fails with the
lists-not-found error; with an existing directory `work` alongside the
missing entry, the open succeeds and the unreadable file is silently
skipped. -/
theorem openDB_listsNotFound_and_skips_witness :
    let badPatterns := [("gone", false)]
    let patterns := [("gone", false), ("work", true)]
    let bad : DiskFile := ⟨"work", "locked.ics", false, .invalid⟩
    (openDB badPatterns [bad] = .error .listsNotFound
      ∧ (∃ db, openDB patterns [bad] = .ok db
          ∧ db.mat = assign (visibleTodos (resolveLists patterns) [bad]))
      ∧ (∀ f ∈ [bad], f.readable = false → f ∉ scan (resolveLists patterns) [bad])) := by
  intro badPatterns patterns bad
  refine ⟨?_, ?_, ?_⟩
  · exact (openDB_listsNotFound_and_skips badPatterns [bad]).1.mpr (by decide)
  · exact (openDB_listsNotFound_and_skips patterns [bad]).2.1 (by decide)
  · exact (openDB_listsNotFound_and_skips patterns [bad]).2.2

/-- `click.IntRange(min)` as used for id arguments: values below the
minimum are rejected, everything else is returned unchanged. -/
def intRangeCheck (minVal value : Int) : Except Err Int :=
  if value < minVal then .error (.badParameter value) else .ok value

/-- `with_id_arg`, `cli.py` lines 16-17: single-id commands (`edit`,
`show`) validate with `IntRange(min=TODO_ID_MIN)`. -/
def idArgCheck (value : Int) : Except Err Int :=
  intRangeCheck (Int.ofNat TODO_ID_MIN) value

/-- The batch id-taking commands `done`, `delete`, `copy`, `move`
(`cli.py` lines 324, 359, 383, 400) validate each id with
`click.IntRange(0)`. -/
def batchIdsCheck (ids : List Int) : Except Err (List Int) :=
  ids.mapM (intRangeCheck 0)

/-- C10: the batch commands' range check accepts every id `>= 0`,
including 0 — even though assigned ids always start at `TODO_ID_MIN = 1`
— so an invocation naming id 0 passes validation and then necessarily
fails at lookup with `NoSuchTodo 0` on every materialization. -/
theorem batch_id_zero_accepted_then_noSuchTodo (v : Int) (hv : 0 ≤ v) :
    intRangeCheck 0 v = .ok v
    ∧ batchIdsCheck [0] = .ok [0]
    ∧ ∀ ts : List Todo, lookupTodo 0 (assign ts) = .error (.noSuchTodo 0) := by
  refine ⟨by simp [intRangeCheck, not_lt.mpr hv], rfl, ?_⟩
  intro ts
  have hfind : (assign ts).find? (fun p => p.1 == 0) = none := by
    rw [List.find?_eq_none]
    intro p hp
    simp only [beq_iff_eq]
    intro h0
    have : p.1 ∈ (assign ts).map Prod.fst := List.mem_map_of_mem _ hp
    rw [mem_assign_ids] at this
    simp only [TODO_ID_MIN] at this
    omega
  simp [lookupTodo, hfind]

/-- Witness for C10: id 0 itself passes the batch range check and fails
lookup on a one-task store. -/
theorem batch_id_zero_accepted_then_noSuchTodo_witness :
    intRangeCheck 0 0 = .ok 0
    ∧ batchIdsCheck [0] = .ok [0]
    ∧ ∀ ts : List Todo, lookupTodo 0 (assign ts) = .error (.noSuchTodo 0) :=
  batch_id_zero_accepted_then_noSuchTodo 0 (by decide)

/-- Modelled from the spec: Cache upsert keyed by file path
(`put(path, signature, tasks)`). -/
def cacheUpdate (cache : Cache) (p : String) (ts : List Todo) : Cache :=
  (p, ts) :: cache.filter (fun e => !(e.1 == p))

/-- Modelled from the spec: writing a task file: overwrite the file at
the given list/filename when it exists, otherwise create it there. -/
def writeFile (fs : FS) (listName fname : String) (content : FileContent) : FS :=
  if fs.any (fun f => f.list == listName && f.filename == fname) then
    fs.map (fun f =>
      if f.list == listName && f.filename == fname then
        { f with content := content }
      else f)
  else fs ++ [{ list := listName, filename := fname, readable := true,
                content := content }]

/-- Modelled from the spec: `save(task)` — if `task.read_only`, fails
with `ReadOnlyTodo`; otherwise encodes and writes the task's file, then
updates the Cache entry for that path.  (`todoman/model.py` is not in
the sources.) -/
def Database.save (t : Todo) (db : Database) : Except Err Database :=
  match encode t with
  | .error e => .error e
  | .ok content =>
      .ok { db with fs := writeFile db.fs t.list t.filename content,
                    cache := cacheUpdate db.cache t.path [t] }

/-- `Database.save` as a state-passing operation, so that the effect of
a failed save on the store state is explicit. -/
def Database.saveOp (t : Todo) (db : Database) : Except Err Unit × Database :=
  match db.save t with
  | .error e => (.error e, db)
  | .ok db2 => (.ok (), db2)

/-- C4: saving a task whose `read_only` flag is set fails with
`ReadOnlyTodo` on the task's backing path, and the store state — in
particular the multi-component backing file's content — is left entirely
unchanged. -/
theorem save_readOnly_fails_unchanged (db : Database) (t : Todo)
    (hro : t.read_only = true) :
    db.saveOp t = (.error (.readOnlyTodo t.path), db)
    ∧ (db.saveOp t).2.fs = db.fs := by
  have h : db.saveOp t = (.error (.readOnlyTodo t.path), db) := by
    simp [Database.saveOp, Database.save, encode, hro]
  exact ⟨h, by rw [h]⟩

/-- Witness for C4: saving a task decoded from a two-component file
fails with `ReadOnlyTodo` and leaves the store unchanged. -/
theorem save_readOnly_fails_unchanged_witness :
    let t : Todo :=
      { uid := "u1", summary := "a", completed := false, created_at := 0,
        due := none, start := none, location := none, category := none,
        priority := none, extra := [], read_only := true,
        list := "work", filename := "multi.ics" }
    let db : Database :=
      { paths := ["work"],
        fs := [{ list := "work", filename := "multi.ics", readable := true,
                 content := .valid [t.toComponent, t.toComponent] }],
        cache := [], mat := [] }
    db.saveOp t = (.error (.readOnlyTodo t.path), db)
    ∧ (db.saveOp t).2.fs = db.fs := by
  intro t db
  exact save_readOnly_fails_unchanged db t rfl

/-- Modelled from the spec: `flush() -> sequence of deleted Task` —
selects all tasks with completion flag set, deletes their files, then
clears the entire Cache (forcing full id renumbering on the next open)
and returns the deleted tasks.  (`todoman/model.py` is not in the
sources; `cli.py` lines 348-354 iterate over its result.) -/
def Database.flush (db : Database) : List Todo × Database :=
  let deleted := (db.mat.map Prod.snd).filter (fun t => t.completed)
  let deletedPaths := deleted.map Todo.path
  (deleted,
    { db with fs := db.fs.filter (fun f => !(deletedPaths.contains f.path)),
              cache := [], mat := [] })

/-- Every task in a materialized collection is backed by a scanned file
with the same list and filename (hence the same path). -/
theorem mem_visibleTodos_path (paths : List String) (fs : FS) (t : Todo)
    (ht : t ∈ visibleTodos paths fs) :
    ∃ f ∈ fs, t.list = f.list ∧ t.filename = f.filename := by
  simp only [visibleTodos, List.mem_flatten, List.mem_map] at ht
  obtain ⟨l, ⟨f, hf, hfl⟩, htl⟩ := ht
  refine ⟨f, List.mem_of_mem_filter hf, ?_⟩
  rw [← hfl] at htl
  rcases hc : f.content with cs | _
  · simp only [fileTodos, hc, decode, List.mem_map] at htl
    obtain ⟨c, _, hct⟩ := htl
    rw [← hct]
    exact ⟨rfl, rfl⟩
  · simp [fileTodos, hc, decode] at htl

/-- C6: `flush` returns exactly the tasks of the current materialization
whose completion flag is set; it clears the entire cache; a file of the
store survives the flush exactly when its path is not the path of a
returned (deleted) task — so the backing files of the completed tasks
and of no others are deleted; and any subsequent open over the remaining
files assigns ids `1..M` (M the new count of visible tasks), none of
which refers to a deleted task's path. -/
theorem flush_removes_completed_renumbers (db : Database)
    (patterns : List (String × Bool)) (db2 : Database)
    (hopen : openDB patterns (db.flush).2.fs = .ok db2) :
    (db.flush).1 = (db.mat.map Prod.snd).filter (fun t => t.completed)
    ∧ (db.flush).2.cache = []
    ∧ (∀ f ∈ db.fs, (f ∈ (db.flush).2.fs ↔ f.path ∉ (db.flush).1.map Todo.path))
    ∧ db2.mat.map Prod.fst
        = List.range' TODO_ID_MIN
            (visibleTodos (resolveLists patterns) (db.flush).2.fs).length
    ∧ ∀ p ∈ db2.mat, p.2.path ∉ (db.flush).1.map Todo.path := by
  have hne : resolveLists patterns ≠ [] := by
    intro h
    rw [show openDB patterns (db.flush).2.fs = .error .listsNotFound from by
      simp [openDB, h]] at hopen
    exact Except.noConfusion hopen
  rw [openDB_ok patterns (db.flush).2.fs hne] at hopen
  simp only [Except.ok.injEq] at hopen
  subst hopen
  refine ⟨rfl, rfl, ?_, ?_, ?_⟩
  · intro f hf
    simp only [Database.flush, List.mem_filter, hf, true_and,
      Bool.not_eq_true', Bool.not_eq_true]
    rw [← Bool.not_eq_true]
    constructor
    · intro h hmem
      exact h (List.elem_iff.mpr hmem)
    · intro h hc
      exact h (List.elem_iff.mp hc)
  · exact List.enumFrom_map_fst _ _
  · intro p hp hbad
    have hp2 : p ∈ assign (visibleTodos (resolveLists patterns) (db.flush).2.fs) := hp
    have hsnd : p.2 ∈ visibleTodos (resolveLists patterns) (db.flush).2.fs := by
      have h1 := List.mem_map_of_mem Prod.snd hp2
      unfold assign at h1
      rwa [List.enumFrom_map_snd] at h1
    obtain ⟨f, hf, hl, hn⟩ := mem_visibleTodos_path _ _ _ hsnd
    have hpath : p.2.path = f.path := by
      simp only [Todo.path, DiskFile.path, hl, hn]
    simp only [Database.flush, List.mem_filter] at hf
    have h2 : List.elem f.path (((db.mat.map Prod.snd).filter
        (fun t => t.completed)).map Todo.path) = false := by
      have h4 := hf.2
      rwa [Bool.not_eq_true'] at h4
    simp only [Database.flush] at hbad
    rw [hpath] at hbad
    have h3 := List.elem_iff.mpr hbad
    rw [h2] at h3
    exact Bool.noConfusion h3

/-- Witness for C6: a store with one completed and one pending task;
flushing deletes exactly the completed one's file, clears the cache, and
a fresh open renumbers from 1 without the deleted task. -/
theorem flush_removes_completed_renumbers_witness :
    let c1 : Component :=
      { uid := "u1", summary := "a", completed := true, created_at := 0,
        due := none, start := none, location := none, category := none,
        priority := none, extra := [] }
    let c2 : Component :=
      { uid := "u2", summary := "b", completed := false, created_at := 0,
        due := none, start := none, location := none, category := none,
        priority := none, extra := [] }
    let f1 : DiskFile := { list := "work", filename := "1.ics",
                           readable := true, content := .valid [c1] }
    let f2 : DiskFile := { list := "work", filename := "2.ics",
                           readable := true, content := .valid [c2] }
    let db : Database :=
      { paths := ["work"], fs := [f1, f2], cache := [],
        mat := assign (visibleTodos ["work"] [f1, f2]) }
    let patterns := [("work", true)]
    let db2 : Database :=
      { paths := resolveLists patterns, fs := (db.flush).2.fs,
        cache := (scan (resolveLists patterns) (db.flush).2.fs).map
          (fun f => (f.path, fileTodos f)),
        mat := assign (visibleTodos (resolveLists patterns) (db.flush).2.fs) }
    ((db.flush).1 = (db.mat.map Prod.snd).filter (fun t => t.completed)
      ∧ (db.flush).2.cache = []
      ∧ (∀ f ∈ db.fs, (f ∈ (db.flush).2.fs ↔ f.path ∉ (db.flush).1.map Todo.path))
      ∧ db2.mat.map Prod.fst
          = List.range' TODO_ID_MIN
              (visibleTodos (resolveLists patterns) (db.flush).2.fs).length
      ∧ ∀ p ∈ db2.mat, p.2.path ∉ (db.flush).1.map Todo.path) := by
  intro c1 c2 f1 f2 db patterns db2
  exact flush_removes_completed_renumbers db patterns db2
    (openDB_ok patterns (db.flush).2.fs (by decide))

/-- Whether a file's content holds a component of the given task
identity (its `uid`); the durable identity used to count a task's
backing files. -/
def FileContent.containsUid : FileContent → String → Bool
  | .valid cs, u => cs.any (fun c => c.uid == u)
  | .invalid, _ => false

/-- Modelled from the spec: `move(task, to_list, from_list)` — relocates
the backing file from the task's current list directory to the target
list's directory, preserving the filename where possible and
disambiguating on collision (the exact rule is left open by the spec; a
deterministic suffix is used), invalidating the Cache entry at the old
path and creating one at the new path.  A missing backing file leaves
the store unchanged. -/
def Database.move (t : Todo) (newList : String) (db : Database) : Database :=
  match db.fs.find? (fun f => f.list == t.list && f.filename == t.filename) with
  | none => db
  | some f =>
      let rest := db.fs.filter
        (fun g => !(g.list == t.list && g.filename == t.filename))
      let newName :=
        if rest.any (fun g => g.list == newList && g.filename == t.filename)
        then t.filename ++ ".1"
        else t.filename
      { db with
          fs := rest ++ [{ list := newList, filename := newName,
                           readable := true, content := f.content }],
          cache := cacheUpdate (db.cache.filter (fun e => !(e.1 == t.path)))
            (newList ++ "/" ++ newName)
            [{ t with list := newList, filename := newName }] }

/-- The save-then-move caller pattern of `edit`, `cli.py` lines 301-307:
the fetched task's list is reset to its old list before saving (`t` here
is the task as saved, with `t.list` the old list, and `newList` the list
captured from the edit), and the move runs only when the list actually
changed. -/
def editListChange (t : Todo) (newList : String) (db : Database) :
    Except Err Database :=
  match db.save t with
  | .error e => .error e
  | .ok db1 => if t.list = newList then .ok db1 else .ok (db1.move t newList)

/-- Case analysis for `writeFile`: every file of the result is either
the freshly written file at the target location, or an untouched file of
the input that is not at the target location. -/
theorem writeFile_mem (fs : FS) (listName fname : String) (c : FileContent)
    (g : DiskFile) (hg : g ∈ writeFile fs listName fname c) :
    (g.list = listName ∧ g.filename = fname ∧ g.content = c)
    ∨ (g ∈ fs ∧ ¬(g.list = listName ∧ g.filename = fname)) := by
  unfold writeFile at hg
  by_cases hany : fs.any (fun f => f.list == listName && f.filename == fname) = true
  · rw [if_pos hany] at hg
    obtain ⟨g0, hg0, hgeq⟩ := List.mem_map.mp hg
    by_cases hkey : (g0.list == listName && g0.filename == fname) = true
    · left
      rw [if_pos hkey] at hgeq
      simp only [Bool.and_eq_true, beq_iff_eq] at hkey
      rw [← hgeq]
      exact ⟨hkey.1, hkey.2, rfl⟩
    · right
      rw [if_neg hkey] at hgeq
      rw [← hgeq]
      refine ⟨hg0, ?_⟩
      intro hk
      exact hkey (by simp [hk.1, hk.2])
  · rw [if_neg hany] at hg
    rcases List.mem_append.mp hg with h | h
    · right
      refine ⟨h, ?_⟩
      intro hk
      rw [List.any_eq_true] at hany
      exact hany ⟨g, h, by simp [hk.1, hk.2]⟩
    · left
      simp only [List.mem_singleton] at h
      rw [h]
      exact ⟨rfl, rfl, rfl⟩

/-- `writeFile` always leaves a file with the written content at the
target location. -/
theorem writeFile_exists_key (fs : FS) (listName fname : String)
    (c : FileContent) :
    ∃ g ∈ writeFile fs listName fname c,
      g.list = listName ∧ g.filename = fname ∧ g.content = c := by
  unfold writeFile
  by_cases hany : fs.any (fun f => f.list == listName && f.filename == fname) = true
  · rw [if_pos hany]
    obtain ⟨f0, hf0, hkey⟩ := List.any_eq_true.mp hany
    simp only [Bool.and_eq_true, beq_iff_eq] at hkey
    refine ⟨{ f0 with content := c }, ?_, hkey.1, hkey.2, rfl⟩
    have h5 := List.mem_map_of_mem (fun f : DiskFile =>
      if f.list == listName && f.filename == fname then
        { f with content := c } else f) hf0
    simpa [hkey.1, hkey.2] using h5
  · rw [if_neg hany]
    exact ⟨_, List.mem_append_right _ (List.mem_singleton_self _), rfl, rfl, rfl⟩

/-- The filesystem effect of `move` when the backing file is found: the
old entry is removed and one relocated entry is appended under the new
list, with the filename disambiguated on collision. -/
theorem move_fs (t : Todo) (newList : String) (db : Database) (f0 : DiskFile)
    (hf0 : db.fs.find? (fun f => f.list == t.list && f.filename == t.filename)
      = some f0) :
    (db.move t newList).fs
      = db.fs.filter (fun g => !(g.list == t.list && g.filename == t.filename))
        ++ [{ list := newList,
              filename :=
                if (db.fs.filter (fun g =>
                      !(g.list == t.list && g.filename == t.filename))).any
                    (fun g => g.list == newList && g.filename == t.filename)
                then t.filename ++ ".1"
                else t.filename,
              readable := true, content := f0.content }] := by
  unfold Database.move
  rw [hf0]

/-- C7: under the save-then-move caller pattern of `edit` (save writes
the task's content under the old list, then move relocates the file to
the new list), when the task is not read-only, the target list differs
from the old one, and the task's identity (`uid`) occurs on disk only at
its own backing location, the operation succeeds and afterwards exactly
one backing file for that task exists — under the new list — and no file
under the old list holds the task. -/
theorem edit_dance_single_backing (db : Database) (t : Todo)
    (newList : String) (hro : t.read_only = false) (hne : newList ≠ t.list)
    (huid : ∀ f ∈ db.fs, f.content.containsUid t.uid = true →
              f.list = t.list ∧ f.filename = t.filename) :
    ∃ db2, editListChange t newList db = .ok db2
      ∧ (db2.fs.filter (fun f => f.content.containsUid t.uid)).length = 1
      ∧ (∀ f ∈ db2.fs, f.content.containsUid t.uid = true → f.list = newList)
      ∧ (∀ f ∈ db2.fs, f.list = t.list → f.content.containsUid t.uid = false) := by
  have henc : encode t = .ok (.valid [t.toComponent]) := by
    simp [encode, hro]
  set db1 : Database :=
    { db with fs := writeFile db.fs t.list t.filename (.valid [t.toComponent]),
              cache := cacheUpdate db.cache t.path [t] } with hdb1
  have hsave : db.save t = .ok db1 := by
    rw [hdb1]
    simp [Database.save, henc]
  have hA : ∀ g ∈ db1.fs, g.content.containsUid t.uid = true →
      g.list = t.list ∧ g.filename = t.filename := by
    intro g hg hcu
    rcases writeFile_mem db.fs t.list t.filename (.valid [t.toComponent]) g hg
      with ⟨h1, h2, _⟩ | ⟨hmem, hnot⟩
    · exact ⟨h1, h2⟩
    · exact absurd (huid g hmem hcu) hnot
  have hB : ∀ g ∈ db1.fs, g.list = t.list → g.filename = t.filename →
      g.content = .valid [t.toComponent] := by
    intro g hg hl hn
    rcases writeFile_mem db.fs t.list t.filename (.valid [t.toComponent]) g hg
      with ⟨_, _, h3⟩ | ⟨_, hnot⟩
    · exact h3
    · exact absurd ⟨hl, hn⟩ hnot
  have hfind : (db1.fs.find?
      (fun f => f.list == t.list && f.filename == t.filename)).isSome := by
    rw [List.find?_isSome]
    obtain ⟨g, hg, h1, h2, _⟩ :=
      writeFile_exists_key db.fs t.list t.filename (.valid [t.toComponent])
    exact ⟨g, hg, by simp [h1, h2]⟩
  obtain ⟨f0, hf0⟩ := Option.isSome_iff_exists.mp hfind
  have hf0mem : f0 ∈ db1.fs := List.mem_of_find?_eq_some hf0
  have hf0key := List.find?_some hf0
  simp only [Bool.and_eq_true, beq_iff_eq] at hf0key
  have hf0c : f0.content = .valid [t.toComponent] :=
    hB f0 hf0mem hf0key.1 hf0key.2
  have hfs2 := move_fs t newList db1 f0 hf0
  have hcu_moved : FileContent.containsUid f0.content t.uid = true := by
    rw [hf0c]
    simp [FileContent.containsUid, Todo.toComponent]
  have hrest : ∀ g ∈ db1.fs.filter
      (fun g => !(g.list == t.list && g.filename == t.filename)),
      g.content.containsUid t.uid = false := by
    intro g hg
    have hmem := List.mem_of_mem_filter hg
    have hflt := List.of_mem_filter hg
    rw [Bool.not_eq_true'] at hflt
    by_contra hcu
    rw [Bool.not_eq_false] at hcu
    obtain ⟨hl, hn⟩ := hA g hmem hcu
    simp [hl, hn] at hflt
  refine ⟨db1.move t newList, ?_, ?_, ?_, ?_⟩
  · unfold editListChange
    rw [hsave]
    show (if t.list = newList then Except.ok db1
      else Except.ok (Database.move t newList db1)) = _
    rw [if_neg (fun h => hne (Eq.symm h))]
  · rw [hfs2, List.filter_append,
      List.filter_eq_nil_iff.mpr (by
        intro g hg
        rw [hrest g hg]
        exact Bool.false_ne_true),
      List.nil_append]
    simp [hcu_moved]
  · intro f hf hcu
    rw [hfs2] at hf
    rcases List.mem_append.mp hf with h | h
    · rw [hrest f h] at hcu
      exact Bool.noConfusion hcu
    · simp only [List.mem_singleton] at h
      rw [h]
  · intro f hf hfl
    rw [hfs2] at hf
    rcases List.mem_append.mp hf with h | h
    · exact hrest f h
    · simp only [List.mem_singleton] at h
      rw [h] at hfl
      exact absurd hfl hne

/-- Witness for C7: a task backed by `work/a.ics` moved to list `home`
ends with exactly one backing file, under `home`, and none under
`work`. -/
theorem edit_dance_single_backing_witness :
    let t : Todo :=
      { uid := "u1", summary := "a", completed := false, created_at := 0,
        due := none, start := none, location := none, category := none,
        priority := none, extra := [], read_only := false,
        list := "work", filename := "a.ics" }
    let db : Database :=
      { paths := ["work", "home"],
        fs := [{ list := "work", filename := "a.ics", readable := true,
                 content := .valid [t.toComponent] }],
        cache := [], mat := assign [t] }
    ∃ db2, editListChange t "home" db = .ok db2
      ∧ (db2.fs.filter (fun f => f.content.containsUid t.uid)).length = 1
      ∧ (∀ f ∈ db2.fs, f.content.containsUid t.uid = true → f.list = "home")
      ∧ (∀ f ∈ db2.fs, f.list = t.list → f.content.containsUid t.uid = false) := by
  intro t db
  exact edit_dance_single_backing db t "home" rfl (by decide) (by decide)

end Todoman
